import Mathlib

/-!
Verification of `btgym/algorithms/worker.py`.

The file gives a shallow embedding of the `FastSaver.save` override and of the
`Worker.run` process body: role dispatch, tf server start, environment and
trainer construction, saver / supervisor setup, the supervised training loop,
and shutdown.

External collaborators (the tf server, session and supervisor, the environment
and the trainer) are modelled by an oracle `TrainerEnv` recording how each
external call would behave.  `Worker.run` is embedded as the trace-producing
function `workerRun` over that oracle, mirroring the Python control flow
statement by statement; the trace records, in order, the externally visible
calls the body makes.
-/

/-- Python string membership `needle in hay`: `needle` occurs as a contiguous
substring of `hay`. -/
def strContains (hay needle : String) : Bool :=
  hay.data.tails.any (fun t => needle.data.isPrefixOf t)

/-- Python `s.startswith(pre)`: `pre` is a prefix of the character sequence
of `s`. -/
def strStartsWith (s pre : String) : Bool :=
  pre.data.isPrefixOf s.data

/-- Role dispatch test of `Worker.run` (worker.py line 102):
`if self.job_name in 'ps':` — Python substring membership of the job name in
the two-character string "ps". -/
def jobNameInPS (jobName : String) : Bool :=
  strContains "ps" jobName

/-- Externally visible calls made by `Worker.run`, in order of occurrence. -/
inductive Ev where
  -- tf.train.Server started on the "ps" branch (lines 103-108)
  | psServerStart : Ev
  -- `server.join()` on the "ps" branch (line 111)
  | psJoin : Ev
  -- tf.train.Server started on the worker branch (lines 114-122)
  | workerServerStart : Ev
  -- `self.env = self.env_class(...)` succeeded (lines 129-142)
  | envMake : Ev
  -- environment construction raised; carries the SystemExit message
  | envFail : String → Ev
  -- `trainer = self.trainer_class(...)` (lines 146-153)
  | trainerMake : Ev
  -- `sess.run(trainer.sync)` (line 194)
  | syncRun : Ev
  -- `trainer.start(sess, summary_writer)` (line 195)
  | trainerStartCall : Ev
  -- `global_step = sess.run(trainer.global_step)`; carries the value read
  | gStepRead : Nat → Ev
  -- `trainer.memory.is_full()` check; carries the reported value (line 198)
  | memFullCheck : Bool → Ev
  -- `trainer.memory.fill()` (line 200)
  | memFill : Ev
  -- `trainer.process(sess)` at loop iteration i (line 204)
  | processCall : Nat → Ev
  -- `self.env.close()` (line 208)
  | envClose : Ev
  -- `sv.stop()` (line 209)
  | svStopCall : Ev
  -- final `reached ... steps, exiting` log line; carries task and step (line 210)
  | finalLog : Nat → Nat → Ev
  -- a checkpoint write triggered explicitly by in-process code (never emitted:
  -- `Worker.run` contains no `saver.save` call; checkpointing is delegated to
  -- the Supervisor's time-based `save_model_secs` service)
  | checkpointWrite : Ev
deriving DecidableEq

/-- How the embedded `Worker.run` ends. -/
inductive RunOutcome where
  -- the "ps" branch blocks forever in `server.join()`
  | blockedInJoin : RunOutcome
  -- `raise SystemExit(msg)` escaped `run`
  | systemExit : String → RunOutcome
  -- an exception raised by `trainer.process(sess)` at iteration i escaped `run`
  | exnFromProcess : Nat → RunOutcome
  -- an exception raised by `self.env.close()` escaped `run`
  | exnFromClose : RunOutcome
  -- `run` returned normally; carries the final `global_step` value
  | finished : Nat → RunOutcome
  -- the modelling fuel ran out while the training loop was still iterating
  | outOfFuel : RunOutcome
deriving DecidableEq

/-- Observable process exit status for an outcome (`none`: the process has not
exited).  In Python, `SystemExit` with a string message and an uncaught
exception both end the process with status 1; a normal return from the process
body ends it with status 0. -/
def RunOutcome.exitCode : RunOutcome → Option Nat
  | .blockedInJoin => none
  | .outOfFuel => none
  | .systemExit _ => some 1
  | .exnFromProcess _ => some 1
  | .exnFromClose => some 1
  | .finished _ => some 0

/-- Oracle for the external collaborators of `Worker.run`: how each external
call would behave during this run. -/
structure TrainerEnv where
  -- whether `self.env_class(...)` succeeds (both construction modes)
  envOk : Bool
  -- whether `hasattr(trainer, 'memory')` holds
  hasMemory : Bool
  -- what `trainer.memory.is_full()` reports at session start
  memoryFull : Bool
  -- what `sv.should_stop()` reports at the i-th loop check
  shouldStop : Nat → Bool
  -- the value of the shared counter `trainer.global_step` at the k-th
  -- `sess.run(trainer.global_step)` read (read 0 precedes the loop, read
  -- k + 1 follows iteration k)
  stepRead : Nat → Nat
  -- whether `trainer.process(sess)` at iteration i returns (false: raises)
  processOk : Nat → Bool
  -- whether `self.env.close()` returns (false: raises)
  closeOk : Bool

/-- The constructor arguments of `Worker` that `run` consults. -/
structure WorkerConfig where
  jobName : String
  task : Nat
  maxTrainSteps : Nat
  testMode : Bool

/-- How the embedded training loop ends. -/
inductive LoopExit where
  -- the while-condition became false; carries the current `global_step`
  | normal : Nat → LoopExit
  -- `trainer.process(sess)` raised at iteration i
  | raised : Nat → LoopExit
  -- modelling fuel ran out
  | noFuel : LoopExit
deriving DecidableEq

/-- The training loop of `Worker.run` (lines 203-205):

`while not sv.should_stop() and global_step < self.max_train_steps:`
`    trainer.process(sess)`
`    global_step = sess.run(trainer.global_step)`

`i` counts completed checks of the while-condition, `gs` is the current Python
variable `global_step`, and `fuel` bounds the number of iterations modelled
(the Python loop has no such bound). -/
def trainLoop (te : TrainerEnv) (maxSteps : Nat) : Nat → Nat → Nat → List Ev × LoopExit
  | 0, _, _ => ([], .noFuel)
  | fuel + 1, i, gs =>
    if te.shouldStop i = false ∧ gs < maxSteps then
      if te.processOk i then
        let gs2 := te.stepRead (i + 1)
        let r := trainLoop te maxSteps fuel (i + 1) gs2
        (.processCall i :: .gStepRead gs2 :: r.1, r.2)
      else
        ([.processCall i], .raised i)
    else
      ([], .normal gs)

/-- The SystemExit message raised when environment construction fails
(lines 135 and 142): production (BTgym) mode vs diagnostic (Atari) mode. -/
def envFailMsg (cfg : WorkerConfig) : String :=
  if cfg.testMode then
    " Worker_" ++ toString cfg.task ++ " failed to make Atari Gym environment"
  else
    " Worker_" ++ toString cfg.task ++ " failed to make BTgym environment"

/-- Lines 197-200: `if hasattr(trainer, 'memory'): if not
trainer.memory.is_full(): trainer.memory.fill()`. -/
def memEvs (te : TrainerEnv) : List Ev :=
  if te.hasMemory then
    .memFullCheck te.memoryFull :: (if te.memoryFull then [] else [Ev.memFill])
  else []

/-- The calls made on the worker branch before the training loop: server
start (lines 114-122), environment construction success (lines 129-142),
trainer construction (lines 146-153), then — inside `sv.managed_session` —
`sess.run(trainer.sync)`, `trainer.start(...)`, the first
`global_step = sess.run(trainer.global_step)` read, and the replay-memory
warm-up (lines 194-200). -/
def sessionPrefix (te : TrainerEnv) : List Ev :=
  Ev.workerServerStart :: Ev.envMake :: Ev.trainerMake ::
    Ev.syncRun :: Ev.trainerStartCall :: Ev.gStepRead (te.stepRead 0) :: memEvs te

/-- What follows the training loop (lines 208-210), by how the loop ended:
on normal exit, `self.env.close()` runs (an exception from it propagates and
skips the rest), then `sv.stop()`, then the final log line; an exception from
`trainer.process` propagates out of the `with` block, so neither `close` nor
`stop` nor the log line runs. -/
def afterLoop (cfg : WorkerConfig) (te : TrainerEnv) (pre : List Ev) :
    List Ev × LoopExit → List Ev × RunOutcome
  | (evs, .raised i) => (pre ++ evs, .exnFromProcess i)
  | (evs, .noFuel) => (pre ++ evs, .outOfFuel)
  | (evs, .normal gs) =>
    if te.closeOk then
      (pre ++ evs ++ [Ev.envClose, Ev.svStopCall, Ev.finalLog cfg.task gs], .finished gs)
    else
      (pre ++ evs ++ [Ev.envClose], .exnFromClose)

/-- The body of `Worker.run` (lines 93-210) as a trace of external calls plus
an outcome.

* "ps" branch (lines 102-111): start the ps server, then block in
  `server.join()`; nothing after the join is ever reached.
* worker branch: start the worker server (lines 114-122); construct the
  environment (lines 129-142), raising `SystemExit` on any construction
  failure, before the trainer or any session exists; construct the trainer
  (lines 146-153); build the saver / supervisor (modelled separately by
  `setupSupervisor`, lines 160-190); then inside `sv.managed_session`:
  run `trainer.sync`, call `trainer.start`, read `global_step`, fill the
  replay memory if present and not full (lines 194-200), run the training
  loop (lines 203-205), and finish as `afterLoop` describes. -/
def workerRun (cfg : WorkerConfig) (te : TrainerEnv) (fuel : Nat) : List Ev × RunOutcome :=
  if jobNameInPS cfg.jobName then
    ([.psServerStart, .psJoin], .blockedInJoin)
  else
    if te.envOk = false then
      ([.workerServerStart, .envFail (envFailMsg cfg)], .systemExit (envFailMsg cfg))
    else
      afterLoop cfg te (sessionPrefix te)
        (trainLoop te cfg.maxTrainSteps fuel 0 (te.stepRead 0))

/-- A tf variable, identified by its name (all the partition logic in
`Worker.run` consults only the name). -/
structure TFVar where
  name : String
deriving DecidableEq

/-- `variables_to_save = [v for v in tf.global_variables() if not
v.name.startswith("local")]` (line 160). -/
def variablesToSave (allVars : List TFVar) : List TFVar :=
  allVars.filter (fun v => !(strStartsWith v.name "local"))

/-- The saver / initializer / supervisor configuration built in lines 160-190:
which variable set each op ranges over, chief election, and the checkpoint
cadence. -/
structure SupervisorSetup where
  -- `saver = FastSaver(variables_to_save)` (line 164)
  saverVars : List TFVar
  -- `init_op = tf.variables_initializer(variables_to_save)` (line 161)
  initOpVars : List TFVar
  -- `init_all_op = tf.global_variables_initializer()` (line 162),
  -- run by `init_fn` on the session elected for first-time initialization
  initAllVars : List TFVar
  -- `ready_op = tf.report_uninitialized_variables(variables_to_save)` (line 187)
  readyOpVars : List TFVar
  -- `is_chief = (self.task == 0)` (line 181)
  isChief : Bool
  -- `save_model_secs = 300` (line 189): wall-clock checkpoint interval
  saveModelSecs : Nat
deriving DecidableEq

/-- Lines 160-190 of `Worker.run`: the variable partition and the Supervisor
construction. -/
def setupSupervisor (allVars : List TFVar) (task : Nat) : SupervisorSetup :=
  ⟨variablesToSave allVars, variablesToSave allVars, allVars,
    variablesToSave allVars, decide (task = 0), 300⟩

/-- The argument record of one call to `tf.train.Saver.save` (the base-class
method that `FastSaver.save` delegates to). -/
structure BaseSaveCall where
  sessArg : Nat
  savePath : String
  globalStepArg : Option Nat
  latestFilename : Option String
  metaGraphSuffix : String
  writeMetaGraph : Bool
deriving DecidableEq

/-- `super(FastSaver, self).save(...)`: the base saver receives exactly the
arguments it is passed. -/
def saverBaseSave (sess : Nat) (savePath : String) (globalStep : Option Nat)
    (latestFilename : Option String) (metaGraphSuffix : String)
    (writeMetaGraph : Bool) : BaseSaveCall :=
  ⟨sess, savePath, globalStep, latestFilename, metaGraphSuffix, writeMetaGraph⟩

namespace FastSaver

set_option linter.unusedVariables false in
/-- `FastSaver.save` (worker.py lines 24-37): forwards `sess`, `save_path`,
`global_step`, `latest_filename` and `meta_graph_suffix` unchanged to the base
saver, and passes `False` in the `write_meta_graph` position no matter what
`write_meta_graph` argument the caller supplied. -/
def save (sess : Nat) (savePath : String) (globalStep : Option Nat)
    (latestFilename : Option String) (metaGraphSuffix : String)
    (writeMetaGraph : Bool) : BaseSaveCall :=
  saverBaseSave sess savePath globalStep latestFilename metaGraphSuffix false

end FastSaver

/-- A run in which everything behaves: the environment builds, there is no
replay memory, the stop flag stays unset, the shared counter advances by 5
per read, every `process` call returns, and `close` returns. -/
def sampleEnv : TrainerEnv :=
  ⟨true, false, false, fun _ => false, fun k => 5 * k, fun _ => true, true⟩

/-- Like `sampleEnv`, but the trainer has a replay memory that is not full. -/
def sampleEnvMem : TrainerEnv :=
  ⟨true, true, false, fun _ => false, fun k => 5 * k, fun _ => true, true⟩

/-- Like `sampleEnv`, but every `trainer.process` call raises. -/
def sampleEnvRaises : TrainerEnv :=
  ⟨true, false, false, fun _ => false, fun _ => 0, fun _ => false, true⟩

/-- Like `sampleEnv`, but environment construction fails. -/
def sampleEnvNoEnv : TrainerEnv :=
  ⟨false, false, false, fun _ => false, fun _ => 0, fun _ => true, true⟩

/-- A rank-0 worker-role configuration with step threshold 5, production mode. -/
def sampleCfg : WorkerConfig := ⟨"worker", 0, 5, false⟩

example : jobNameInPS "ps" = true := by decide
example : jobNameInPS "worker" = false := by decide
example : jobNameInPS "foo" = false := by decide
example : jobNameInPS "p" = true := by decide
example : jobNameInPS "" = true := by decide
example : workerRun sampleCfg sampleEnv 3 =
    ([Ev.workerServerStart, Ev.envMake, Ev.trainerMake, Ev.syncRun, Ev.trainerStartCall,
      Ev.gStepRead 0, Ev.processCall 0, Ev.gStepRead 5, Ev.envClose, Ev.svStopCall,
      Ev.finalLog 0 5], RunOutcome.finished 5) := by decide
example : (workerRun sampleCfg sampleEnvRaises 3).2 = RunOutcome.exnFromProcess 0 := by decide
example : workerRun ⟨"ps", 1, 5, false⟩ sampleEnv 3 =
    ([Ev.psServerStart, Ev.psJoin], RunOutcome.blockedInJoin) := by decide

/-! ### Helper lemmas about the training loop and the run trace -/

lemma trainLoop_events (te : TrainerEnv) (maxSteps : Nat) :
    ∀ fuel i gs, ∀ e ∈ (trainLoop te maxSteps fuel i gs).1,
      (∃ j, e = Ev.processCall j) ∨ ∃ n, e = Ev.gStepRead n := by
  intro fuel
  induction fuel with
  | zero => intro i gs e h; simp [trainLoop] at h
  | succ fuel ih =>
    intro i gs e h
    simp only [trainLoop] at h
    by_cases hc : te.shouldStop i = false ∧ gs < maxSteps
    · rw [if_pos hc] at h
      by_cases hp : te.processOk i = true
      · rw [if_pos hp] at h
        simp only [List.mem_cons] at h
        rcases h with h | h | h
        · exact Or.inl ⟨i, h⟩
        · exact Or.inr ⟨te.stepRead (i + 1), h⟩
        · exact ih (i + 1) (te.stepRead (i + 1)) e h
      · rw [if_neg hp] at h
        simp only [List.mem_cons, List.not_mem_nil, or_false] at h
        exact Or.inl ⟨i, h⟩
    · rw [if_neg hc] at h
      simp at h

lemma trainLoop_nil_of_le (te : TrainerEnv) (maxSteps : Nat) (fuel i gs : Nat)
    (hle : maxSteps ≤ gs) : (trainLoop te maxSteps fuel i gs).1 = [] := by
  have hnc : ¬(te.shouldStop i = false ∧ gs < maxSteps) := by
    rintro ⟨-, hlt⟩
    exact absurd hlt (not_lt.mpr hle)
  cases fuel with
  | zero => simp [trainLoop]
  | succ fuel => simp [trainLoop, hnc]

lemma trainLoop_process_inv (te : TrainerEnv) (maxSteps : Nat) :
    ∀ fuel i gs, gs = te.stepRead i →
      ∀ j, Ev.processCall j ∈ (trainLoop te maxSteps fuel i gs).1 →
        te.shouldStop j = false ∧ te.stepRead j < maxSteps := by
  intro fuel
  induction fuel with
  | zero => intro i gs _ j h; simp [trainLoop] at h
  | succ fuel ih =>
    intro i gs hgs j h
    simp only [trainLoop] at h
    by_cases hc : te.shouldStop i = false ∧ gs < maxSteps
    · rw [if_pos hc] at h
      by_cases hp : te.processOk i = true
      · rw [if_pos hp] at h
        simp only [List.mem_cons] at h
        rcases h with h | h | h
        · simp only [Ev.processCall.injEq] at h
          subst h
          exact ⟨hc.1, hgs ▸ hc.2⟩
        · exact absurd h (by simp)
        · exact ih (i + 1) (te.stepRead (i + 1)) rfl j h
      · rw [if_neg hp] at h
        simp only [List.mem_cons, List.not_mem_nil, or_false, Ev.processCall.injEq] at h
        subst h
        exact ⟨hc.1, hgs ▸ hc.2⟩
    · rw [if_neg hc] at h
      simp at h

lemma trainLoop_gstep_values (te : TrainerEnv) (maxSteps : Nat) :
    ∀ fuel i gs n, Ev.gStepRead n ∈ (trainLoop te maxSteps fuel i gs).1 →
      ∃ k, n = te.stepRead k := by
  intro fuel
  induction fuel with
  | zero => intro i gs n h; simp [trainLoop] at h
  | succ fuel ih =>
    intro i gs n h
    simp only [trainLoop] at h
    by_cases hc : te.shouldStop i = false ∧ gs < maxSteps
    · rw [if_pos hc] at h
      by_cases hp : te.processOk i = true
      · rw [if_pos hp] at h
        simp only [List.mem_cons] at h
        rcases h with h | h | h
        · exact absurd h (by simp)
        · simp only [Ev.gStepRead.injEq] at h
          exact ⟨i + 1, h⟩
        · exact ih (i + 1) (te.stepRead (i + 1)) n h
      · rw [if_neg hp] at h
        simp at h
    · rw [if_neg hc] at h
      simp at h

lemma trainLoop_adjacent (te : TrainerEnv) (maxSteps : Nat) :
    ∀ fuel i gs l1 l2 j,
      (trainLoop te maxSteps fuel i gs).1 = l1 ++ Ev.processCall j :: l2 →
      (l2 = [] ∧ (trainLoop te maxSteps fuel i gs).2 = .raised j) ∨
      ∃ l3, l2 = Ev.gStepRead (te.stepRead (j + 1)) :: l3 := by
  intro fuel
  induction fuel with
  | zero =>
    intro i gs l1 l2 j h
    simp only [trainLoop] at h
    exact absurd h.symm (by simp)
  | succ fuel ih =>
    intro i gs l1 l2 j h
    simp only [trainLoop] at h ⊢
    by_cases hc : te.shouldStop i = false ∧ gs < maxSteps
    · rw [if_pos hc] at h ⊢
      by_cases hp : te.processOk i = true
      · rw [if_pos hp] at h ⊢
        simp only at h ⊢
        cases l1 with
        | nil =>
          simp only [List.nil_append] at h
          injection h with h1 h2
          simp only [Ev.processCall.injEq] at h1
          subst h1
          exact Or.inr ⟨_, h2.symm⟩
        | cons e l1 =>
          simp only [List.cons_append] at h
          injection h with h1 h2
          cases l1 with
          | nil =>
            simp only [List.nil_append] at h2
            injection h2 with h3 h4
            exact absurd h3 (by simp)
          | cons e2 l1 =>
            simp only [List.cons_append] at h2
            injection h2 with h3 h4
            exact ih (i + 1) (te.stepRead (i + 1)) l1 l2 j h4
      · rw [if_neg hp] at h ⊢
        simp only at h ⊢
        cases l1 with
        | nil =>
          simp only [List.nil_append] at h
          injection h with h1 h2
          simp only [Ev.processCall.injEq] at h1
          subst h1
          exact Or.inl ⟨h2.symm, rfl⟩
        | cons e l1 =>
          simp only [List.cons_append] at h
          injection h with h1 h2
          exact absurd h2.symm (by simp)
    · rw [if_neg hc] at h
      simp only at h
      exact absurd h.symm (by simp)

lemma sessionPrefix_events (te : TrainerEnv) :
    ∀ e ∈ sessionPrefix te,
      e = Ev.workerServerStart ∨ e = Ev.envMake ∨ e = Ev.trainerMake ∨
      e = Ev.syncRun ∨ e = Ev.trainerStartCall ∨ e = Ev.gStepRead (te.stepRead 0) ∨
      (∃ b, e = Ev.memFullCheck b) ∨ e = Ev.memFill := by
  intro e h
  by_cases hm : te.hasMemory = true
  · by_cases hf : te.memoryFull = true <;>
      simp only [sessionPrefix, memEvs, hm, hf, if_true, if_false, List.mem_cons,
        List.not_mem_nil, or_false, Bool.false_eq_true, if_neg] at h <;>
      aesop
  · simp only [sessionPrefix, memEvs, hm, Bool.false_eq_true, if_neg, if_false,
      List.mem_cons, List.not_mem_nil, or_false] at h
    aesop

lemma sessionPrefix_no_process (te : TrainerEnv) (j : Nat) :
    Ev.processCall j ∉ sessionPrefix te := by
  intro h
  rcases sessionPrefix_events te _ h with h | h | h | h | h | h | h | h <;> simp at h

lemma sessionPrefix_no_envClose (te : TrainerEnv) : Ev.envClose ∉ sessionPrefix te := by
  intro h
  rcases sessionPrefix_events te _ h with h | h | h | h | h | h | h | h <;> simp at h

lemma sessionPrefix_no_svStop (te : TrainerEnv) : Ev.svStopCall ∉ sessionPrefix te := by
  intro h
  rcases sessionPrefix_events te _ h with h | h | h | h | h | h | h | h <;> simp at h

lemma sessionPrefix_no_checkpoint (te : TrainerEnv) :
    Ev.checkpointWrite ∉ sessionPrefix te := by
  intro h
  rcases sessionPrefix_events te _ h with h | h | h | h | h | h | h | h <;> simp at h

lemma sessionPrefix_gstep (te : TrainerEnv) (n : Nat)
    (h : Ev.gStepRead n ∈ sessionPrefix te) : n = te.stepRead 0 := by
  rcases sessionPrefix_events te _ h with h | h | h | h | h | h | h | h <;> simp at h
  exact h

lemma memFill_mem_sessionPrefix (te : TrainerEnv) :
    Ev.memFill ∈ sessionPrefix te ↔ te.hasMemory = true ∧ te.memoryFull = false := by
  by_cases hm : te.hasMemory = true
  · by_cases hf : te.memoryFull = true
    · simp [sessionPrefix, memEvs, hm, hf]
    · have hf2 : te.memoryFull = false := by simpa using hf
      simp [sessionPrefix, memEvs, hm, hf2]
  · have hm2 : te.hasMemory = false := by simpa using hm
    simp [sessionPrefix, memEvs, hm2]

lemma workerRun_worker_eq (cfg : WorkerConfig) (te : TrainerEnv) (fuel : Nat)
    (hrole : jobNameInPS cfg.jobName = false) (henv : te.envOk = true) :
    workerRun cfg te fuel =
      afterLoop cfg te (sessionPrefix te)
        (trainLoop te cfg.maxTrainSteps fuel 0 (te.stepRead 0)) := by
  simp [workerRun, hrole, henv]

lemma workerRun_ps_eq (cfg : WorkerConfig) (te : TrainerEnv) (fuel : Nat)
    (hrole : jobNameInPS cfg.jobName = true) :
    workerRun cfg te fuel = ([Ev.psServerStart, Ev.psJoin], .blockedInJoin) := by
  simp [workerRun, hrole]

lemma workerRun_envFail_eq (cfg : WorkerConfig) (te : TrainerEnv) (fuel : Nat)
    (hrole : jobNameInPS cfg.jobName = false) (henv : te.envOk = false) :
    workerRun cfg te fuel =
      ([Ev.workerServerStart, Ev.envFail (envFailMsg cfg)],
        .systemExit (envFailMsg cfg)) := by
  simp [workerRun, hrole, henv]

lemma workerRun_raised_eq (cfg : WorkerConfig) (te : TrainerEnv) (fuel : Nat)
    (evs : List Ev) (i : Nat)
    (hrole : jobNameInPS cfg.jobName = false) (henv : te.envOk = true)
    (htl : trainLoop te cfg.maxTrainSteps fuel 0 (te.stepRead 0) = (evs, .raised i)) :
    workerRun cfg te fuel = (sessionPrefix te ++ evs, .exnFromProcess i) := by
  rw [workerRun_worker_eq cfg te fuel hrole henv, htl, afterLoop]

lemma workerRun_noFuel_eq (cfg : WorkerConfig) (te : TrainerEnv) (fuel : Nat)
    (evs : List Ev)
    (hrole : jobNameInPS cfg.jobName = false) (henv : te.envOk = true)
    (htl : trainLoop te cfg.maxTrainSteps fuel 0 (te.stepRead 0) = (evs, .noFuel)) :
    workerRun cfg te fuel = (sessionPrefix te ++ evs, .outOfFuel) := by
  rw [workerRun_worker_eq cfg te fuel hrole henv, htl, afterLoop]

lemma workerRun_normal_close_eq (cfg : WorkerConfig) (te : TrainerEnv) (fuel : Nat)
    (evs : List Ev) (gs : Nat)
    (hrole : jobNameInPS cfg.jobName = false) (henv : te.envOk = true)
    (hcl : te.closeOk = true)
    (htl : trainLoop te cfg.maxTrainSteps fuel 0 (te.stepRead 0) = (evs, .normal gs)) :
    workerRun cfg te fuel =
      (sessionPrefix te ++ evs ++ [Ev.envClose, Ev.svStopCall, Ev.finalLog cfg.task gs],
        .finished gs) := by
  rw [workerRun_worker_eq cfg te fuel hrole henv, htl, afterLoop, if_pos hcl]

lemma workerRun_normal_noclose_eq (cfg : WorkerConfig) (te : TrainerEnv) (fuel : Nat)
    (evs : List Ev) (gs : Nat)
    (hrole : jobNameInPS cfg.jobName = false) (henv : te.envOk = true)
    (hcl : te.closeOk = false)
    (htl : trainLoop te cfg.maxTrainSteps fuel 0 (te.stepRead 0) = (evs, .normal gs)) :
    workerRun cfg te fuel = (sessionPrefix te ++ evs ++ [Ev.envClose], .exnFromClose) := by
  have hcl2 : ¬te.closeOk = true := by simp [hcl]
  rw [workerRun_worker_eq cfg te fuel hrole henv, htl, afterLoop, if_neg hcl2]

lemma workerRun_trace_cases (cfg : WorkerConfig) (te : TrainerEnv) (fuel : Nat) {e : Ev}
    (h : e ∈ (workerRun cfg te fuel).1) :
    e = Ev.psServerStart ∨ e = Ev.psJoin ∨
    (∃ msg, e = Ev.envFail msg) ∨ e = Ev.workerServerStart ∨
    e ∈ sessionPrefix te ∨
    (∃ j, e = Ev.processCall j) ∨ (∃ n, e = Ev.gStepRead n) ∨
    e = Ev.envClose ∨ e = Ev.svStopCall ∨ (∃ a b, e = Ev.finalLog a b) := by
  by_cases hrole : jobNameInPS cfg.jobName = true
  · rw [workerRun_ps_eq cfg te fuel hrole] at h
    simp only [List.mem_cons, List.not_mem_nil, or_false] at h
    tauto
  · have hrole2 : jobNameInPS cfg.jobName = false := by simpa using hrole
    by_cases henv : te.envOk = true
    · rcases htl : trainLoop te cfg.maxTrainSteps fuel 0 (te.stepRead 0) with ⟨evs, ex⟩
      have hloop : ∀ x ∈ evs, (∃ j, x = Ev.processCall j) ∨ ∃ n, x = Ev.gStepRead n := by
        intro x hx
        exact trainLoop_events te cfg.maxTrainSteps fuel 0 (te.stepRead 0) x
          (by rw [htl]; exact hx)
      cases ex with
      | raised i =>
        rw [workerRun_raised_eq cfg te fuel evs i hrole2 henv htl] at h
        simp only [List.mem_append] at h
        rcases h with h | h
        · tauto
        · rcases hloop _ h with h | h <;> tauto
      | noFuel =>
        rw [workerRun_noFuel_eq cfg te fuel evs hrole2 henv htl] at h
        simp only [List.mem_append] at h
        rcases h with h | h
        · tauto
        · rcases hloop _ h with h | h <;> tauto
      | normal gs =>
        by_cases hcl : te.closeOk = true
        · rw [workerRun_normal_close_eq cfg te fuel evs gs hrole2 henv hcl htl] at h
          simp only [List.append_assoc, List.mem_append, List.mem_cons,
            List.not_mem_nil, or_false] at h
          rcases h with h | h | h | h | h
          · tauto
          · rcases hloop _ h with h | h <;> tauto
          · tauto
          · tauto
          · exact Or.inr (Or.inr (Or.inr (Or.inr (Or.inr (Or.inr (Or.inr (Or.inr
              (Or.inr ⟨_, _, h⟩))))))))
        · have hcl2 : te.closeOk = false := by simpa using hcl
          rw [workerRun_normal_noclose_eq cfg te fuel evs gs hrole2 henv hcl2 htl] at h
          simp only [List.append_assoc, List.mem_append, List.mem_cons,
            List.not_mem_nil, or_false] at h
          rcases h with h | h | h
          · tauto
          · rcases hloop _ h with h | h <;> tauto
          · tauto
    · have henv2 : te.envOk = false := by simpa using henv
      rw [workerRun_envFail_eq cfg te fuel hrole2 henv2] at h
      simp only [List.mem_cons, List.not_mem_nil, or_false] at h
      rcases h with h | h
      · tauto
      · exact Or.inr (Or.inr (Or.inl ⟨_, h⟩))

lemma workerRun_no_checkpoint (cfg : WorkerConfig) (te : TrainerEnv) (fuel : Nat) :
    Ev.checkpointWrite ∉ (workerRun cfg te fuel).1 := by
  intro hmem
  rcases workerRun_trace_cases cfg te fuel hmem with
    h | h | ⟨m, h⟩ | h | h | ⟨j, h⟩ | ⟨n, h⟩ | h | h | ⟨a, b, h⟩
  all_goals first
    | exact sessionPrefix_no_checkpoint te h
    | simp at h

/-! ### Claims -/

/-- Claim C10: every call of the customized saver's `save` reaches the base
saver with meta-graph writing disabled, whatever `write_meta_graph` argument
the caller passed, and with all other arguments forwarded unchanged. -/
theorem fastSaver_save_disables_meta_graph (sess : Nat) (savePath : String)
    (globalStep : Option Nat) (latestFilename : Option String)
    (metaGraphSuffix : String) (writeMetaGraph : Bool) :
    (FastSaver.save sess savePath globalStep latestFilename metaGraphSuffix
        writeMetaGraph).writeMetaGraph = false ∧
    FastSaver.save sess savePath globalStep latestFilename metaGraphSuffix
        writeMetaGraph =
      saverBaseSave sess savePath globalStep latestFilename metaGraphSuffix false ∧
    FastSaver.save sess savePath globalStep latestFilename metaGraphSuffix true =
      FastSaver.save sess savePath globalStep latestFilename metaGraphSuffix false :=
  ⟨rfl, rfl, rfl⟩

/-- Claim C5: the variable partition is decided purely by the "local" name
prefix — the saved set, the non-chief initializer set and the readiness-check
set all equal the filtered global set (names not starting with "local"), the
chief-only initialize-everything callback ranges over the full set, and every
local variable is excluded from the readiness check and partial initializer. -/
theorem variable_partition_by_local_name (allVars : List TFVar) (task : Nat) :
    (setupSupervisor allVars task).saverVars = variablesToSave allVars ∧
    (setupSupervisor allVars task).initOpVars = variablesToSave allVars ∧
    (setupSupervisor allVars task).readyOpVars = variablesToSave allVars ∧
    (setupSupervisor allVars task).initAllVars = allVars ∧
    (∀ v, v ∈ variablesToSave allVars ↔
      v ∈ allVars ∧ strStartsWith v.name "local" = false) ∧
    (∀ v, strStartsWith v.name "local" = true →
      v ∉ (setupSupervisor allVars task).readyOpVars ∧
      v ∉ (setupSupervisor allVars task).initOpVars) := by
  refine ⟨rfl, rfl, rfl, rfl, ?_, ?_⟩
  · intro v
    simp [variablesToSave, List.mem_filter]
  · intro v hv
    constructor <;>
      · intro hmem
        simp only [setupSupervisor] at hmem
        simp [variablesToSave, List.mem_filter, hv] at hmem

/-- Witness for `variable_partition_by_local_name` at a concrete variable
list: the "local0" variable is excluded from the readiness and initializer
sets. -/
theorem variable_partition_by_local_name_witness :
    (⟨"local0"⟩ : TFVar) ∉ (setupSupervisor [⟨"local0"⟩, ⟨"w0"⟩] 0).readyOpVars ∧
    (⟨"local0"⟩ : TFVar) ∉ (setupSupervisor [⟨"local0"⟩, ⟨"w0"⟩] 0).initOpVars :=
  (variable_partition_by_local_name [⟨"local0"⟩, ⟨"w0"⟩] 0).2.2.2.2.2
    ⟨"local0"⟩ (by decide)

/-- Claim C9: checkpointing is configured with the global (non-"local")
variable subset only and a fixed 300-second wall-clock cadence, and the
in-process run body never performs an ad-hoc checkpoint write. -/
theorem checkpoint_time_based_global_only (allVars : List TFVar) (task : Nat)
    (cfg : WorkerConfig) (te : TrainerEnv) (fuel : Nat) :
    (setupSupervisor allVars task).saveModelSecs = 300 ∧
    (setupSupervisor allVars task).saverVars = variablesToSave allVars ∧
    (∀ v, v ∈ (setupSupervisor allVars task).saverVars →
      strStartsWith v.name "local" = false) ∧
    (workerRun cfg te fuel).1.count Ev.checkpointWrite = 0 := by
  refine ⟨rfl, rfl, ?_, ?_⟩
  · intro v hv
    simp only [setupSupervisor] at hv
    simp [variablesToSave, List.mem_filter] at hv
    exact hv.2
  · rw [List.count_eq_zero]
    exact workerRun_no_checkpoint cfg te fuel

/-- Witness for `checkpoint_time_based_global_only`: the variable "w0" kept
by the saver is a global (non-"local") one. -/
theorem checkpoint_time_based_global_only_witness :
    strStartsWith (TFVar.name ⟨"w0"⟩) "local" = false :=
  (checkpoint_time_based_global_only [⟨"w0"⟩] 0 sampleCfg sampleEnv 3).2.2.1
    ⟨"w0"⟩ (by decide)

/-- Claim C6: a parameter-server-role process starts the ps server and blocks
in `server.join()` — its run never returns (no exit code), and its trace
contains no environment construction, no trainer construction and no
`process` call. -/
theorem ps_role_blocks_in_join (cfg : WorkerConfig) (te : TrainerEnv) (fuel : Nat)
    (hrole : jobNameInPS cfg.jobName = true) :
    workerRun cfg te fuel = ([Ev.psServerStart, Ev.psJoin], .blockedInJoin) ∧
    (∀ j, Ev.processCall j ∉ (workerRun cfg te fuel).1) ∧
    Ev.envMake ∉ (workerRun cfg te fuel).1 ∧
    Ev.trainerMake ∉ (workerRun cfg te fuel).1 ∧
    (workerRun cfg te fuel).2.exitCode = none := by
  have h := workerRun_ps_eq cfg te fuel hrole
  refine ⟨h, ?_, ?_, ?_, ?_⟩ <;> rw [h] <;> simp [RunOutcome.exitCode]

/-- Witness for `ps_role_blocks_in_join`: the role string "ps" takes the
blocking parameter-server path. -/
theorem ps_role_blocks_in_join_witness :
    workerRun ⟨"ps", 1, 5, false⟩ sampleEnv 3 =
      ([Ev.psServerStart, Ev.psJoin], .blockedInJoin) :=
  (ps_role_blocks_in_join ⟨"ps", 1, 5, false⟩ sampleEnv 3 (by decide)).1

/-- Claim C7: on the worker path, a failing environment construction ends the
run at once with `SystemExit` (exit status 1) and a message naming the rank,
in both production and diagnostic modes; the trace shows a single construction
attempt and stops there — no trainer construction, no session sync, no
`process` call, no checkpoint write ever happens. -/
theorem env_construction_failure_fatal (cfg : WorkerConfig) (te : TrainerEnv)
    (fuel : Nat) (hrole : jobNameInPS cfg.jobName = false)
    (henv : te.envOk = false) :
    workerRun cfg te fuel =
      ([Ev.workerServerStart, Ev.envFail (envFailMsg cfg)],
        .systemExit (envFailMsg cfg)) ∧
    (workerRun cfg te fuel).2.exitCode = some 1 ∧
    envFailMsg cfg = (if cfg.testMode then
        " Worker_" ++ toString cfg.task ++ " failed to make Atari Gym environment"
      else
        " Worker_" ++ toString cfg.task ++ " failed to make BTgym environment") ∧
    Ev.trainerMake ∉ (workerRun cfg te fuel).1 ∧
    Ev.syncRun ∉ (workerRun cfg te fuel).1 ∧
    (∀ j, Ev.processCall j ∉ (workerRun cfg te fuel).1) ∧
    Ev.checkpointWrite ∉ (workerRun cfg te fuel).1 := by
  have h := workerRun_envFail_eq cfg te fuel hrole henv
  refine ⟨h, ?_, rfl, ?_, ?_, ?_, ?_⟩ <;> rw [h] <;> simp [RunOutcome.exitCode]

/-- Witness for `env_construction_failure_fatal`: a rank-0 production-mode
worker whose environment factory fails exits through `SystemExit` with the
BTgym message. -/
theorem env_construction_failure_fatal_witness :
    workerRun sampleCfg sampleEnvNoEnv 3 =
      ([Ev.workerServerStart, Ev.envFail (envFailMsg sampleCfg)],
        .systemExit (envFailMsg sampleCfg)) :=
  (env_construction_failure_fatal sampleCfg sampleEnvNoEnv 3 (by decide) rfl).1

lemma workerRun_process_mem (cfg : WorkerConfig) (te : TrainerEnv) (fuel : Nat)
    {j : Nat} (h : Ev.processCall j ∈ (workerRun cfg te fuel).1) :
    Ev.processCall j ∈ (trainLoop te cfg.maxTrainSteps fuel 0 (te.stepRead 0)).1 := by
  by_cases hrole : jobNameInPS cfg.jobName = true
  · rw [workerRun_ps_eq cfg te fuel hrole] at h
    simp at h
  · have hrole2 : jobNameInPS cfg.jobName = false := by simpa using hrole
    by_cases henv : te.envOk = true
    · rcases htl : trainLoop te cfg.maxTrainSteps fuel 0 (te.stepRead 0) with ⟨evs, ex⟩
      cases ex with
      | raised i =>
        rw [workerRun_raised_eq cfg te fuel evs i hrole2 henv htl] at h
        simp only [List.mem_append] at h
        rcases h with h | h
        · exact absurd h (sessionPrefix_no_process te j)
        · exact h
      | noFuel =>
        rw [workerRun_noFuel_eq cfg te fuel evs hrole2 henv htl] at h
        simp only [List.mem_append] at h
        rcases h with h | h
        · exact absurd h (sessionPrefix_no_process te j)
        · exact h
      | normal gs =>
        by_cases hcl : te.closeOk = true
        · rw [workerRun_normal_close_eq cfg te fuel evs gs hrole2 henv hcl htl] at h
          simp only [List.append_assoc, List.mem_append] at h
          rcases h with h | h | h
          · exact absurd h (sessionPrefix_no_process te j)
          · exact h
          · simp at h
        · have hcl2 : te.closeOk = false := by simpa using hcl
          rw [workerRun_normal_noclose_eq cfg te fuel evs gs hrole2 henv hcl2 htl] at h
          simp only [List.append_assoc, List.mem_append] at h
          rcases h with h | h | h
          · exact absurd h (sessionPrefix_no_process te j)
          · exact h
          · simp at h
    · have henv2 : te.envOk = false := by simpa using henv
      rw [workerRun_envFail_eq cfg te fuel hrole2 henv2] at h
      simp at h

lemma workerRun_gstep_mem (cfg : WorkerConfig) (te : TrainerEnv) (fuel : Nat)
    {n : Nat} (h : Ev.gStepRead n ∈ (workerRun cfg te fuel).1) :
    ∃ k, n = te.stepRead k := by
  by_cases hrole : jobNameInPS cfg.jobName = true
  · rw [workerRun_ps_eq cfg te fuel hrole] at h
    simp at h
  · have hrole2 : jobNameInPS cfg.jobName = false := by simpa using hrole
    by_cases henv : te.envOk = true
    · rcases htl : trainLoop te cfg.maxTrainSteps fuel 0 (te.stepRead 0) with ⟨evs, ex⟩
      have hloop : Ev.gStepRead n ∈ evs → ∃ k, n = te.stepRead k := fun hh =>
        trainLoop_gstep_values te cfg.maxTrainSteps fuel 0 (te.stepRead 0) n
          (by rw [htl]; exact hh)
      cases ex with
      | raised i =>
        rw [workerRun_raised_eq cfg te fuel evs i hrole2 henv htl] at h
        simp only [List.mem_append] at h
        rcases h with h | h
        · exact ⟨0, sessionPrefix_gstep te n h⟩
        · exact hloop h
      | noFuel =>
        rw [workerRun_noFuel_eq cfg te fuel evs hrole2 henv htl] at h
        simp only [List.mem_append] at h
        rcases h with h | h
        · exact ⟨0, sessionPrefix_gstep te n h⟩
        · exact hloop h
      | normal gs =>
        by_cases hcl : te.closeOk = true
        · rw [workerRun_normal_close_eq cfg te fuel evs gs hrole2 henv hcl htl] at h
          simp only [List.append_assoc, List.mem_append] at h
          rcases h with h | h | h
          · exact ⟨0, sessionPrefix_gstep te n h⟩
          · exact hloop h
          · simp at h
        · have hcl2 : te.closeOk = false := by simpa using hcl
          rw [workerRun_normal_noclose_eq cfg te fuel evs gs hrole2 henv hcl2 htl] at h
          simp only [List.append_assoc, List.mem_append] at h
          rcases h with h | h | h
          · exact ⟨0, sessionPrefix_gstep te n h⟩
          · exact hloop h
          · simp at h
    · have henv2 : te.envOk = false := by simpa using henv
      rw [workerRun_envFail_eq cfg te fuel hrole2 henv2] at h
      simp at h

/-- Claim C1 counterexample: the role name "foo" is not one of the two valid
roles, yet the process is not stopped by a configuration error: the
role-dispatch step sends it down the worker path, which starts a tf server
and constructs the environment and the trainer, and the run completes
normally. -/
theorem unrecognized_role_not_rejected :
    jobNameInPS "foo" = false ∧
    Ev.workerServerStart ∈ (workerRun ⟨"foo", 7, 5, false⟩ sampleEnv 3).1 ∧
    Ev.envMake ∈ (workerRun ⟨"foo", 7, 5, false⟩ sampleEnv 3).1 ∧
    Ev.trainerMake ∈ (workerRun ⟨"foo", 7, 5, false⟩ sampleEnv 3).1 ∧
    (workerRun ⟨"foo", 7, 5, false⟩ sampleEnv 3).2 = .finished 5 := by
  decide

/-- Claim C1 (amended): role dispatch validates nothing — a role name is sent
down the parameter-server path exactly when it is a Python substring of
"ps", and every other role string, recognized or not, takes the worker path:
it starts a tf server, and when the environment factory succeeds it
constructs the environment and trainer; no configuration error and no exit
ever arises from the role name itself. -/
theorem unrecognized_role_runs_worker_path (cfg : WorkerConfig) (te : TrainerEnv)
    (fuel : Nat) (hrole : jobNameInPS cfg.jobName = false) :
    Ev.workerServerStart ∈ (workerRun cfg te fuel).1 ∧
    (te.envOk = true →
      Ev.envMake ∈ (workerRun cfg te fuel).1 ∧
      Ev.trainerMake ∈ (workerRun cfg te fuel).1) ∧
    (te.envOk = true → ∀ msg, (workerRun cfg te fuel).2 ≠ .systemExit msg) ∧
    (workerRun cfg te fuel).2 ≠ .blockedInJoin := by
  have hws : Ev.workerServerStart ∈ sessionPrefix te := by simp [sessionPrefix]
  have hem : Ev.envMake ∈ sessionPrefix te := by simp [sessionPrefix]
  have htm : Ev.trainerMake ∈ sessionPrefix te := by simp [sessionPrefix]
  by_cases henv : te.envOk = true
  · rcases htl : trainLoop te cfg.maxTrainSteps fuel 0 (te.stepRead 0) with ⟨evs, ex⟩
    cases ex with
    | raised i =>
      rw [workerRun_raised_eq cfg te fuel evs i hrole henv htl]
      refine ⟨?_, fun _ => ⟨?_, ?_⟩, fun _ msg => ?_, ?_⟩ <;>
        simp [List.mem_append, hws, hem, htm]
    | noFuel =>
      rw [workerRun_noFuel_eq cfg te fuel evs hrole henv htl]
      refine ⟨?_, fun _ => ⟨?_, ?_⟩, fun _ msg => ?_, ?_⟩ <;>
        simp [List.mem_append, hws, hem, htm]
    | normal gs =>
      by_cases hcl : te.closeOk = true
      · rw [workerRun_normal_close_eq cfg te fuel evs gs hrole henv hcl htl]
        refine ⟨?_, fun _ => ⟨?_, ?_⟩, fun _ msg => ?_, ?_⟩ <;>
          simp [List.mem_append, hws, hem, htm]
      · have hcl2 : te.closeOk = false := by simpa using hcl
        rw [workerRun_normal_noclose_eq cfg te fuel evs gs hrole henv hcl2 htl]
        refine ⟨?_, fun _ => ⟨?_, ?_⟩, fun _ msg => ?_, ?_⟩ <;>
          simp [List.mem_append, hws, hem, htm]
  · have henv2 : te.envOk = false := by simpa using henv
    rw [workerRun_envFail_eq cfg te fuel hrole henv2]
    refine ⟨by simp, fun h => absurd h (by simp [henv2]),
      fun h => absurd h (by simp [henv2]), by simp⟩

/-- Witness for `unrecognized_role_runs_worker_path` at the unrecognized role
name "chief". -/
theorem unrecognized_role_runs_worker_path_witness :
    Ev.workerServerStart ∈ (workerRun ⟨"chief", 2, 5, false⟩ sampleEnv 3).1 :=
  (unrecognized_role_runs_worker_path ⟨"chief", 2, 5, false⟩ sampleEnv 3 (by decide)).1

/-- Claim C2 counterexample: in a run where the first trainer iteration
raises, the exception propagates out of the session block and `env.close()`
is never attempted — so close is not attempted "regardless of whether earlier
steps failed". -/
theorem close_skipped_on_iteration_failure :
    (workerRun ⟨"worker", 0, 10, false⟩ sampleEnvRaises 3).2 = .exnFromProcess 0 ∧
    Ev.processCall 0 ∈ (workerRun ⟨"worker", 0, 10, false⟩ sampleEnvRaises 3).1 ∧
    Ev.envClose ∉ (workerRun ⟨"worker", 0, 10, false⟩ sampleEnvRaises 3).1 := by
  decide

/-- Claim C2 (amended): `env.close()` is called exactly once on runs whose
training loop completes normally, after the loop and before `sv.stop()`; if a
trainer iteration raises, the exception propagates and close is never
attempted; and an exception inside `close` itself propagates as well,
skipping the explicit `sv.stop()` call, rather than being logged and
suppressed. -/
theorem close_once_on_normal_loop_exit (cfg : WorkerConfig) (te : TrainerEnv)
    (fuel : Nat) :
    (∀ gs, (workerRun cfg te fuel).2 = .finished gs →
      (workerRun cfg te fuel).1.count Ev.envClose = 1 ∧
      Ev.svStopCall ∈ (workerRun cfg te fuel).1) ∧
    ((workerRun cfg te fuel).2 = .exnFromClose →
      (workerRun cfg te fuel).1.count Ev.envClose = 1 ∧
      Ev.svStopCall ∉ (workerRun cfg te fuel).1) ∧
    (∀ j, (workerRun cfg te fuel).2 = .exnFromProcess j →
      (workerRun cfg te fuel).1.count Ev.envClose = 0) := by
  by_cases hrole : jobNameInPS cfg.jobName = true
  · rw [workerRun_ps_eq cfg te fuel hrole]
    refine ⟨fun gs h => ?_, fun h => ?_, fun j h => ?_⟩ <;> simp at h
  · have hrole2 : jobNameInPS cfg.jobName = false := by simpa using hrole
    by_cases henv : te.envOk = true
    · rcases htl : trainLoop te cfg.maxTrainSteps fuel 0 (te.stepRead 0) with ⟨evs, ex⟩
      have hncE : Ev.envClose ∉ evs := by
        intro hh
        rcases trainLoop_events te cfg.maxTrainSteps fuel 0 (te.stepRead 0) _
          (by rw [htl]; exact hh) with ⟨j, hj⟩ | ⟨n, hn⟩
        · simp at hj
        · simp at hn
      have hncS : Ev.svStopCall ∉ evs := by
        intro hh
        rcases trainLoop_events te cfg.maxTrainSteps fuel 0 (te.stepRead 0) _
          (by rw [htl]; exact hh) with ⟨j, hj⟩ | ⟨n, hn⟩
        · simp at hj
        · simp at hn
      have hcp : (sessionPrefix te).count Ev.envClose = 0 :=
        List.count_eq_zero.mpr (sessionPrefix_no_envClose te)
      have hce : evs.count Ev.envClose = 0 := List.count_eq_zero.mpr hncE
      cases ex with
      | raised i =>
        rw [workerRun_raised_eq cfg te fuel evs i hrole2 henv htl]
        refine ⟨fun gs h => ?_, fun h => ?_, fun j h => ?_⟩
        · simp at h
        · simp at h
        · simp [List.count_append, hcp, hce]
      | noFuel =>
        rw [workerRun_noFuel_eq cfg te fuel evs hrole2 henv htl]
        refine ⟨fun gs h => ?_, fun h => ?_, fun j h => ?_⟩ <;> simp at h
      | normal gs =>
        by_cases hcl : te.closeOk = true
        · rw [workerRun_normal_close_eq cfg te fuel evs gs hrole2 henv hcl htl]
          refine ⟨fun gs0 h => ?_, fun h => ?_, fun j h => ?_⟩
          · refine ⟨?_, ?_⟩
            · simp [List.count_append, hcp, hce]
            · simp [List.mem_append]
          · simp at h
          · simp at h
        · have hcl2 : te.closeOk = false := by simpa using hcl
          rw [workerRun_normal_noclose_eq cfg te fuel evs gs hrole2 henv hcl2 htl]
          refine ⟨fun gs0 h => ?_, fun h => ?_, fun j h => ?_⟩
          · simp at h
          · refine ⟨?_, ?_⟩
            · simp [List.count_append, hcp, hce]
            · intro hmem
              simp only [List.append_assoc, List.mem_append, List.mem_cons,
                List.not_mem_nil, or_false] at hmem
              rcases hmem with hmem | hmem | hmem
              · exact sessionPrefix_no_svStop te hmem
              · exact hncS hmem
              · simp at hmem
          · simp at h
    · have henv2 : te.envOk = false := by simpa using henv
      rw [workerRun_envFail_eq cfg te fuel hrole2 henv2]
      refine ⟨fun gs h => ?_, fun h => ?_, fun j h => ?_⟩ <;> simp at h

/-- Witness for `close_once_on_normal_loop_exit` on a run finishing at step 5. -/
theorem close_once_on_normal_loop_exit_witness :
    (workerRun sampleCfg sampleEnv 3).1.count Ev.envClose = 1 ∧
    Ev.svStopCall ∈ (workerRun sampleCfg sampleEnv 3).1 :=
  (close_once_on_normal_loop_exit sampleCfg sampleEnv 3).1 5 (by decide)

/-- Claim C3: a trainer iteration happens only when the stop flag was unset
and the last observed global step was strictly below the configured maximum;
in particular, when the first observed global step already reaches the
maximum, no iteration ever runs. -/
theorem no_iteration_at_or_above_max (cfg : WorkerConfig) (te : TrainerEnv)
    (fuel : Nat) :
    (∀ j, Ev.processCall j ∈ (workerRun cfg te fuel).1 →
      te.shouldStop j = false ∧ te.stepRead j < cfg.maxTrainSteps) ∧
    (cfg.maxTrainSteps ≤ te.stepRead 0 →
      ∀ j, Ev.processCall j ∉ (workerRun cfg te fuel).1) := by
  constructor
  · intro j h
    exact trainLoop_process_inv te cfg.maxTrainSteps fuel 0 (te.stepRead 0) rfl j
      (workerRun_process_mem cfg te fuel h)
  · intro hle j h
    have hl := workerRun_process_mem cfg te fuel h
    rw [trainLoop_nil_of_le te cfg.maxTrainSteps fuel 0 (te.stepRead 0) hle] at hl
    simp at hl

/-- Witness for `no_iteration_at_or_above_max`: the iteration executed at
step 0 of the sample run indeed saw an unset stop flag and a global step
below the maximum. -/
theorem no_iteration_at_or_above_max_witness :
    sampleEnv.shouldStop 0 = false ∧
    sampleEnv.stepRead 0 < sampleCfg.maxTrainSteps :=
  (no_iteration_at_or_above_max sampleCfg sampleEnv 3).1 0 (by decide)

/-- Claim C4: on a worker run whose trainer has a replay memory reporting
not-full at session start, `fill()` happens exactly once — right after the
sync, the `trainer.start` call and the first global-step read, and before
every `process()` call (all of which live in the remainder of the trace,
which contains no further `fill`); when the memory reports full, or there is
no memory, `fill()` never happens. -/
theorem memory_fill_once_before_loop (cfg : WorkerConfig) (te : TrainerEnv)
    (fuel : Nat) (hrole : jobNameInPS cfg.jobName = false)
    (henv : te.envOk = true) :
    (te.hasMemory = true → te.memoryFull = false →
      ∃ rest, (workerRun cfg te fuel).1 =
        [Ev.workerServerStart, Ev.envMake, Ev.trainerMake, Ev.syncRun,
          Ev.trainerStartCall, Ev.gStepRead (te.stepRead 0),
          Ev.memFullCheck false, Ev.memFill] ++ rest ∧
        Ev.memFill ∉ rest) ∧
    (te.hasMemory = false ∨ te.memoryFull = true →
      Ev.memFill ∉ (workerRun cfg te fuel).1) := by
  constructor
  · intro hm hf
    have hsp : sessionPrefix te =
        [Ev.workerServerStart, Ev.envMake, Ev.trainerMake, Ev.syncRun,
          Ev.trainerStartCall, Ev.gStepRead (te.stepRead 0),
          Ev.memFullCheck false, Ev.memFill] := by
      simp [sessionPrefix, memEvs, hm, hf]
    rcases htl : trainLoop te cfg.maxTrainSteps fuel 0 (te.stepRead 0) with ⟨evs, ex⟩
    have hnf : Ev.memFill ∉ evs := by
      intro hh
      rcases trainLoop_events te cfg.maxTrainSteps fuel 0 (te.stepRead 0) _
        (by rw [htl]; exact hh) with ⟨j, hj⟩ | ⟨n, hn⟩
      · simp at hj
      · simp at hn
    cases ex with
    | raised i =>
      refine ⟨evs, ?_, hnf⟩
      rw [workerRun_raised_eq cfg te fuel evs i hrole henv htl, hsp]
    | noFuel =>
      refine ⟨evs, ?_, hnf⟩
      rw [workerRun_noFuel_eq cfg te fuel evs hrole henv htl, hsp]
    | normal gs =>
      by_cases hcl : te.closeOk = true
      · refine ⟨evs ++ [Ev.envClose, Ev.svStopCall, Ev.finalLog cfg.task gs], ?_, ?_⟩
        · rw [workerRun_normal_close_eq cfg te fuel evs gs hrole henv hcl htl, hsp]
          simp [List.append_assoc]
        · intro hh
          rcases List.mem_append.mp hh with hh | hh
          · exact hnf hh
          · simp at hh
      · have hcl2 : te.closeOk = false := by simpa using hcl
        refine ⟨evs ++ [Ev.envClose], ?_, ?_⟩
        · rw [workerRun_normal_noclose_eq cfg te fuel evs gs hrole henv hcl2 htl, hsp]
          simp [List.append_assoc]
        · intro hh
          rcases List.mem_append.mp hh with hh | hh
          · exact hnf hh
          · simp at hh
  · intro hnm hmem
    rcases workerRun_trace_cases cfg te fuel hmem with
      h | h | ⟨m, h⟩ | h | h | ⟨j, h⟩ | ⟨n, h⟩ | h | h | ⟨a, b, h⟩
    all_goals try simp at h
    rcases (memFill_mem_sessionPrefix te).mp h with ⟨h1, h2⟩
    rcases hnm with hnm | hnm
    · rw [hnm] at h1
      simp at h1
    · rw [hnm] at h2
      simp at h2

/-- Witness for `memory_fill_once_before_loop` on the sample run with a
not-full replay memory. -/
theorem memory_fill_once_before_loop_witness :
    ∃ rest, (workerRun sampleCfg sampleEnvMem 3).1 =
      [Ev.workerServerStart, Ev.envMake, Ev.trainerMake, Ev.syncRun,
        Ev.trainerStartCall, Ev.gStepRead (sampleEnvMem.stepRead 0),
        Ev.memFullCheck false, Ev.memFill] ++ rest ∧
      Ev.memFill ∉ rest :=
  (memory_fill_once_before_loop sampleCfg sampleEnvMem 3 (by decide) rfl).1 rfl rfl

/-- Claim C8: inside the training loop, every `process` call is immediately
followed in the trace either by a read of the shared global-step counter
returning exactly the counter's next value, or by nothing at all when that
`process` call raised (so the step variable is only ever refreshed by reading
the canonical counter); every global-step value appearing anywhere in a run's
trace is a value of the shared counter, never a locally computed one; and the
value held at normal loop exit is the one in the final log line. -/
theorem global_step_refreshed_from_shared_counter (cfg : WorkerConfig)
    (te : TrainerEnv) (fuel : Nat) :
    (∀ l1 l2 j,
      (trainLoop te cfg.maxTrainSteps fuel 0 (te.stepRead 0)).1 =
        l1 ++ Ev.processCall j :: l2 →
      (l2 = [] ∧
        (trainLoop te cfg.maxTrainSteps fuel 0 (te.stepRead 0)).2 = .raised j) ∨
      ∃ l3, l2 = Ev.gStepRead (te.stepRead (j + 1)) :: l3) ∧
    (∀ n, Ev.gStepRead n ∈ (workerRun cfg te fuel).1 → ∃ k, n = te.stepRead k) ∧
    (∀ gs, (workerRun cfg te fuel).2 = .finished gs →
      Ev.finalLog cfg.task gs ∈ (workerRun cfg te fuel).1) := by
  refine ⟨fun l1 l2 j h =>
    trainLoop_adjacent te cfg.maxTrainSteps fuel 0 (te.stepRead 0) l1 l2 j h,
    fun n h => workerRun_gstep_mem cfg te fuel h, ?_⟩
  intro gs hfin
  by_cases hrole : jobNameInPS cfg.jobName = true
  · rw [workerRun_ps_eq cfg te fuel hrole] at hfin
    simp at hfin
  · have hrole2 : jobNameInPS cfg.jobName = false := by simpa using hrole
    by_cases henv : te.envOk = true
    · rcases htl : trainLoop te cfg.maxTrainSteps fuel 0 (te.stepRead 0) with ⟨evs, ex⟩
      cases ex with
      | raised i =>
        rw [workerRun_raised_eq cfg te fuel evs i hrole2 henv htl] at hfin ⊢
        simp at hfin
      | noFuel =>
        rw [workerRun_noFuel_eq cfg te fuel evs hrole2 henv htl] at hfin ⊢
        simp at hfin
      | normal gs2 =>
        by_cases hcl : te.closeOk = true
        · rw [workerRun_normal_close_eq cfg te fuel evs gs2 hrole2 henv hcl htl]
            at hfin ⊢
          simp only [RunOutcome.finished.injEq] at hfin
          subst hfin
          simp
        · have hcl2 : te.closeOk = false := by simpa using hcl
          rw [workerRun_normal_noclose_eq cfg te fuel evs gs2 hrole2 henv hcl2 htl]
            at hfin
          simp at hfin
    · have henv2 : te.envOk = false := by simpa using henv
      rw [workerRun_envFail_eq cfg te fuel hrole2 henv2] at hfin
      simp at hfin

/-- Witness for `global_step_refreshed_from_shared_counter`: the value 5 read
in the sample run's trace is the shared counter's value at some read. -/
theorem global_step_refreshed_from_shared_counter_witness :
    ∃ k, 5 = sampleEnv.stepRead k :=
  (global_step_refreshed_from_shared_counter sampleCfg sampleEnv 3).2.1 5 (by decide)
